import Mathlib

/-!
Verification development for the `sqs-receive-channel` repository
(package `sqsch` with subpackages `pkg/receive` and `pkg/page`).

The Go source is shallowly embedded: pure functions become Lean
functions over `Int` (Go `int`), Go panics become `Option`/`Except`
failures, and channel emissions become explicit lists of emitted
values. `math.Ceil`/`math.Min` on `float64`-converted integers are
modelled by exact integer ceiling division and `min`, which agree with
the float computation for all magnitudes below 2^53 (far above any
demand or batch size the program handles).
-/

namespace Sqsch

/-- Go constant `MaxBatchSize = 10` from channel.go: the largest number of
messages in a batch SQS request (ReceiveMessage / DeleteMessageBatch). -/
def MaxBatchSize : Int := 10

namespace Receive

/-- Models `int(math.Ceil(float64(a) / float64(b)))` for a positive divisor
`b`: exact integer ceiling division, via floor division on negated input. -/
def ceilDiv (a b : Int) : Int := -((-a) / b)

/-- The body of the `for i := range requests` loop in `Receive.Requests`
(receive.go): at each step take `c := min(count, MaxCount)`, subtract it
from the running count and append it. `n` is the slice length. -/
def requestsLoop (maxCount : Int) : Nat → Int → List Int
  | 0, _ => []
  | Nat.succ n, count =>
    let c := min count maxCount
    c :: requestsLoop maxCount n (count - c)

/-- `Receive.Requests` from receive.go: allocates a slice of length
`ceil(count / MaxCount)` and fills it with the loop above. Go's
`make([]Request, n)` panics when `n < 0`, which is modelled as `none`. -/
def Requests (maxCount count : Int) : Option (List Int) :=
  if ceilDiv count maxCount < 0 then none
  else some (requestsLoop maxCount (ceilDiv count maxCount).toNat count)

/-- `Receive.Do` from receive.go: calls `DoFunc` on the request; a non-nil
error is sent to the errors channel (and the results are dropped),
otherwise every result is sent to the results channel in order. The
returned pair is (results emitted, errors emitted) for this one chunk. -/
def Do {α ε : Type} (doFunc : Int → List α × Option ε) (request : Int) :
    List α × List ε :=
  match doFunc request with
  | (_, some err) => ([], [err])
  | (results, none) => (results, [])

/-- `Receive.Run` from receive.go: splits `count` (the value returned by
`CountFunc`) into requests and executes `Do` once per request. The result
is the per-chunk emission of each spawned `Do`, `none` if `Requests`
panicked. -/
def RunOut {α ε : Type} (doFunc : Int → List α × Option ε)
    (maxCount count : Int) : Option (List (List α × List ε)) :=
  (Requests maxCount count).map (List.map (Do doFunc))

/-- The mutable state of a `Receive` instance relevant to its lifecycle:
the `started` guard flag and the number of values ever sent on the
buffered `done` channel. -/
structure State where
  started : Bool
  doneCount : Nat
deriving DecidableEq

/-- The state of a freshly constructed `Receive` (receive.go `New`). -/
def initial : State := { started := false, doneCount := 0 }

/-- The guard at the top of `Receive.Start` (receive.go): panics with
"receive already started" when the flag is set, otherwise sets it. -/
def Start (s : State) : Except String State :=
  if s.started then Except.error "receive already started"
  else Except.ok { s with started := true }

/-- The `<-ctx.Done()` branch of the goroutine launched by `Start`
(receive.go): sets `started` back to `false`, sends one value on the
`done` channel, and returns. -/
def observeCancel (s : State) : State :=
  { started := false, doneCount := s.doneCount + 1 }

/-- Observable events of the `Start` goroutine loop: one full `Run`
iteration, or the completion signal sent on the `done` channel. -/
inductive Event
  | runIter
  | doneSignal
deriving DecidableEq

/-- The goroutine loop of `Start` (receive.go): each pass checks the
context (the `select` has a `default`, so the check never blocks); if
cancellation is visible at check `i` it signals done and returns,
otherwise it executes `Run` to completion and loops. `fuel` bounds the
modelled executions; the theorems assume cancellation occurs in time. -/
def loopRun (cancelled : Nat → Bool) : Nat → Nat → List Event
  | _, 0 => []
  | i, Nat.succ fuel =>
    if cancelled i then [Event.doneSignal]
    else Event.runIter :: loopRun cancelled (i + 1) fuel

end Receive

namespace Page

/-- The body of the `for i := range pages` loop in `Pager.Pages`
(page.go): identical arithmetic to the receive splitter. -/
def pagesLoop (maxPageSize : Int) : Nat → Int → List Int
  | 0, _ => []
  | Nat.succ n, count =>
    let c := min count maxPageSize
    c :: pagesLoop maxPageSize n (count - c)

/-- `Pager.Pages` from page.go: allocates a slice of length
`ceil(count / MaxPageSize)` and fills it greedily, like
`Receive.Requests`. -/
def Pages (maxPageSize count : Int) : Option (List Int) :=
  if Receive.ceilDiv count maxPageSize < 0 then none
  else some (pagesLoop maxPageSize (Receive.ceilDiv count maxPageSize).toNat count)

end Page

/-- The `ReceiveBufferSize` defaulting at the top of `Start`
(channel.go): a zero (unspecified) value becomes 1 before the receive
channel is allocated with that capacity. -/
def defaultedReceiveBufferSize (n : Int) : Int := if n = 0 then 1 else n

/-- `Dispatch.ReceiveCapacity` (channel.go): `cap(d.receives) -
len(d.receives)` for a Go channel, whose length never exceeds its
capacity. -/
def ReceiveCapacity (chanCap chanLen : Nat) : Int :=
  (chanCap : Int) - (chanLen : Int)

/-- The fields of the SQS `ReceiveMessageInput` that
`Dispatch.receiveMessages` computes (the rest are copied verbatim from
the user-supplied input). -/
structure ReceiveMessageInput where
  maxNumberOfMessages : Int
  waitTimeSeconds : Int
deriving DecidableEq

/-- `Dispatch.receiveMessages` (channel.go): issues one SQS
ReceiveMessage call with `MaxNumberOfMessages` equal to the chunk count,
unchanged, and `WaitTimeSeconds` equal to the 20-second long-poll
maximum. -/
def receiveMessages (count : Int) : ReceiveMessageInput :=
  { maxNumberOfMessages := count, waitTimeSeconds := 20 }

/-- `Dispatch.Receive` wiring (channel.go): the receive loop is built
with `MaxCount = MaxBatchSize` and a `DoFunc` that issues one
`receiveMessages` call per chunk, so one demand value turns into this
list of SQS requests. -/
def dispatchReceiveCalls (demand : Int) : Option (List ReceiveMessageInput) :=
  (Receive.Requests MaxBatchSize demand).map (List.map receiveMessages)

/-- One `DeleteMessageBatchRequestEntry` as built by
`Dispatch.BatchDeletes` (channel.go): `Id` is the decimal position in the
batch, `ReceiptHandle` the message's receipt handle. -/
structure DeleteEntry where
  id : String
  receiptHandle : String
deriving DecidableEq

/-- One element of `DeleteMessageBatchOutput.Failed`: the SQS
`BatchResultErrorEntry`, whose `Id` names the entry that failed. -/
structure BatchResultErrorEntry where
  id : String
  code : String
  message : String
deriving DecidableEq

/-- `BatchDeleteError` from channel.go: the error value the dispatcher
sends for one failed deletion. -/
structure BatchDeleteError where
  code : String
  message : String
  receiptHandle : String
deriving DecidableEq

/-- `Dispatch.BatchDeletes` entry construction (channel.go): entry `i`
gets `Id = strconv.Itoa(i)` and the i-th message's receipt handle. -/
def mkEntries (handles : List String) : List DeleteEntry :=
  handles.enum.map (fun p => { id := toString p.1, receiptHandle := p.2 })

/-- The `for i, failure := range output.Failed` loop of `Dispatch.Delete`
(channel.go): the i-th failure is paired with `entries[i]` — the entry at
the failure's position in the `Failed` list, not the entry named by the
failure's `Id`. Indexing `entries[i]` out of range is a panic, modelled
as `none`. `i` is the loop index accumulator, starting at 0. -/
def deleteFailed (entries : List DeleteEntry) :
    List BatchResultErrorEntry → Nat → Option (List BatchDeleteError)
  | [], _ => some []
  | f :: fs, i =>
    match entries.get? i with
    | none => none
    | some e =>
      (deleteFailed entries fs (i + 1)).map
        (fun rest =>
          { code := f.code, message := f.message,
            receiptHandle := e.receiptHandle } :: rest)

/-- Models the queue service's per-item outcome (spec section 6): the
`Failed` list of a successful DeleteMessageBatch call holds one
`BatchResultErrorEntry` per failing entry index, carrying that entry's
`Id`; succeeding entries contribute nothing. -/
def mkFailed (entries : List DeleteEntry) (failing : List Nat)
    (code msg : String) : List BatchResultErrorEntry :=
  failing.filterMap
    (fun i => (entries.get? i).map
      (fun e => { id := e.id, code := code, message := msg }))

/-- A value sent on the errors channel by `Dispatch.Delete`: either the
whole call's transport error or one per-item `BatchDeleteError`. -/
inductive DeleteEmitted
  | transport (e : String)
  | perItem (b : BatchDeleteError)
deriving DecidableEq

/-- One `case entries := <-batches` arm of the `Dispatch.Delete` loop
(channel.go): a non-nil call error sends exactly that one error and
`continue`s; a successful call runs the per-failure loop. -/
def deleteBatchStep (entries : List DeleteEntry)
    (call : Except String (List BatchResultErrorEntry)) :
    Option (List DeleteEmitted) :=
  match call with
  | Except.error e => some [DeleteEmitted.transport e]
  | Except.ok failed =>
    (deleteFailed entries failed 0).map (List.map DeleteEmitted.perItem)

/-- The `Dispatch.Delete` loop over successive batches (channel.go): the
`for` loop processes each batch in turn — both the error arm and the
failure loop fall through to the next iteration. Each batch is given
with its call outcome; the result concatenates everything emitted. -/
def deleteLoop :
    List (List DeleteEntry × Except String (List BatchResultErrorEntry)) →
    Option (List DeleteEmitted)
  | [] => some []
  | (entries, call) :: rest => do
    let out ← deleteBatchStep entries call
    let outs ← deleteLoop rest
    pure (out ++ outs)

end Sqsch

namespace Sqsch.Receive

example : Requests 10 25 = some [10, 10, 5] := by decide

example : Requests 10 20 = some [10, 10] := by decide

example : Requests 10 5 = some [5] := by decide

example : Requests 10 0 = some [] := by decide

example : Requests 10 (-5) = some [] := by decide

example : Requests 10 (-10) = none := by decide

/-- Closed form of the fill loop: when `n*M < count ≤ (n+1)*M`, the slice
of length `n + 1` holds `n` full chunks of `M` followed by the
remainder. -/
theorem requestsLoop_closed (maxCount : Int) (hM : 0 < maxCount) :
    ∀ (n : Nat) (count : Int), (n : Int) * maxCount < count →
      count ≤ ((n : Int) + 1) * maxCount →
      requestsLoop maxCount (n + 1) count =
        List.replicate n maxCount ++ [count - (n : Int) * maxCount] := by
  intro n
  induction n with
  | zero =>
    intro count h1 h2
    simp only [Nat.cast_zero, zero_mul, zero_add, one_mul] at h1 h2
    simp [requestsLoop, min_eq_left h2]
  | succ n ih =>
    intro count h1 h2
    have hcast : ((n + 1 : Nat) : Int) = (n : Int) + 1 := by push_cast; ring
    rw [hcast] at h1 h2 ⊢
    have hnm : 0 ≤ (n : Int) * maxCount :=
      mul_nonneg (by positivity) hM.le
    have hMle : maxCount ≤ count := by nlinarith
    have hmin : min count maxCount = maxCount := min_eq_right hMle
    have h1' : (n : Int) * maxCount < count - maxCount := by nlinarith
    have h2' : count - maxCount ≤ ((n : Int) + 1) * maxCount := by nlinarith
    have hstep : requestsLoop maxCount (n + 1 + 1) count =
        min count maxCount ::
          requestsLoop maxCount (n + 1) (count - min count maxCount) := rfl
    have helem : count - maxCount - (n : Int) * maxCount =
        count - ((n : Int) + 1) * maxCount := by ring
    rw [hstep, hmin, ih (count - maxCount) h1' h2', List.replicate_succ,
      List.cons_append, helem]

/-- The ceiling division used for the slice length equals `n + 1` on the
interval `(n*M, (n+1)*M]`. -/
theorem ceilDiv_eq_succ (maxCount count : Int) (n : Nat) (hM : 0 < maxCount)
    (h1 : (n : Int) * maxCount < count)
    (h2 : count ≤ ((n : Int) + 1) * maxCount) :
    ceilDiv count maxCount = (n : Int) + 1 := by
  have hle : -((n : Int) + 1) ≤ (-count) / maxCount := by
    rw [Int.le_ediv_iff_mul_le hM]
    nlinarith
  have hlt : (-count) / maxCount < -(n : Int) := by
    rw [Int.ediv_lt_iff_lt_mul hM]
    nlinarith
  have hqle : (-count) / maxCount ≤ -((n : Int) + 1) := by
    have := Int.lt_iff_add_one_le.mp hlt
    linarith
  have hq : (-count) / maxCount = -((n : Int) + 1) := le_antisymm hqle hle
  unfold ceilDiv
  rw [hq]
  ring

/-- For positive demand there is an `n` with `n*M < count ≤ (n+1)*M`. -/
theorem exists_chunks (maxCount count : Int) (hM : 0 < maxCount)
    (hD : 0 < count) :
    ∃ n : Nat, (n : Int) * maxCount < count ∧
      count ≤ ((n : Int) + 1) * maxCount := by
  have hq0 : 0 ≤ (count - 1) / maxCount := Int.ediv_nonneg (by omega) hM.le
  have h1 : ((count - 1) / maxCount) * maxCount ≤ count - 1 :=
    (Int.le_ediv_iff_mul_le hM).mp (le_refl _)
  have h2 : count - 1 < ((count - 1) / maxCount + 1) * maxCount :=
    (Int.ediv_lt_iff_lt_mul hM).mp (lt_add_one _)
  refine ⟨((count - 1) / maxCount).toNat, ?_, ?_⟩
  · rw [Int.toNat_of_nonneg hq0]
    linarith
  · rw [Int.toNat_of_nonneg hq0]
    have := Int.lt_iff_add_one_le.mp h2
    linarith

/-- For `M > 0` and `count > 0`, `Requests` succeeds with the greedy
closed form. -/
theorem Requests_pos_closed (maxCount count : Int) (hM : 0 < maxCount)
    (hD : 0 < count) :
    ∃ n : Nat, ceilDiv count maxCount = (n : Int) + 1 ∧
      (n : Int) * maxCount < count ∧
      count ≤ ((n : Int) + 1) * maxCount ∧
      Requests maxCount count =
        some (List.replicate n maxCount ++
          [count - (n : Int) * maxCount]) := by
  obtain ⟨n, h1, h2⟩ := exists_chunks maxCount count hM hD
  have hce := ceilDiv_eq_succ maxCount count n hM h1 h2
  refine ⟨n, hce, h1, h2, ?_⟩
  have hcast : ((n : Int) + 1) = ((n + 1 : Nat) : Int) := by push_cast; ring
  rw [Requests, hce, hcast, Int.toNat_natCast, if_neg (by omega)]
  exact congrArg some (requestsLoop_closed maxCount hM n count h1 h2)

/-- `Requests` on zero demand is the empty slice for every divisor. -/
theorem Requests_zero (maxCount : Int) : Requests maxCount 0 = some [] := by
  simp [Requests, ceilDiv, requestsLoop]

end Sqsch.Receive

namespace Sqsch.Page

/-- The page fill loop is the same arithmetic as the receive fill loop. -/
theorem pagesLoop_eq_requestsLoop (m : Int) (n : Nat) :
    ∀ c : Int, pagesLoop m n c = Receive.requestsLoop m n c := by
  induction n with
  | zero => intro c; rfl
  | succ n ih =>
    intro c
    simp [pagesLoop, Receive.requestsLoop, ih]

/-- `Pager.Pages` computes exactly what `Receive.Requests` computes. -/
theorem Pages_eq_Requests (m c : Int) : Pages m c = Receive.Requests m c := by
  unfold Pages Receive.Requests
  rw [pagesLoop_eq_requestsLoop]

end Sqsch.Page

namespace Sqsch.Receive

/-- For nonnegative demand `Requests` never hits the panic branch. -/
theorem Requests_nonneg_some (maxCount count : Int) (hM : 0 < maxCount)
    (hD : 0 ≤ count) : ∃ l, Requests maxCount count = some l := by
  rcases hD.lt_or_eq with hpos | hzero
  · obtain ⟨n, _, _, _, hreq⟩ := Requests_pos_closed maxCount count hM hpos
    exact ⟨_, hreq⟩
  · exact ⟨[], hzero ▸ Requests_zero maxCount⟩

/-- Every chunk produced for nonnegative demand is at most `MaxCount`. -/
theorem Requests_mem_le (maxCount count : Int) (hM : 0 < maxCount)
    (hD : 0 ≤ count) (l : List Int) (hl : Requests maxCount count = some l) :
    ∀ c ∈ l, c ≤ maxCount := by
  rcases hD.lt_or_eq with hpos | hzero
  · obtain ⟨n, _, h1, h2, hreq⟩ := Requests_pos_closed maxCount count hM hpos
    rw [hl] at hreq
    obtain rfl := Option.some.inj hreq
    intro c hc
    rcases List.mem_append.mp hc with hc | hc
    · rw [List.eq_of_mem_replicate hc]
    · rw [List.mem_singleton.mp hc]
      have hexp : ((n : Int) + 1) * maxCount =
          (n : Int) * maxCount + maxCount := by ring
      linarith
  · rw [← hzero, Requests_zero] at hl
    obtain rfl := Option.some.inj hl.symm
    intro c hc
    cases hc

/-- Closed form of the goroutine loop: when cancellation first becomes
visible at the `m`-th check after start index `i` (and the fuel covers
it), the trace is `m` completed iterations and then one done signal. -/
theorem loopRun_closed (cancelled : Nat → Bool) :
    ∀ (m i fuel : Nat), (∀ j, j < m → cancelled (i + j) = false) →
      cancelled (i + m) = true → m < fuel →
      loopRun cancelled i fuel =
        List.replicate m Event.runIter ++ [Event.doneSignal] := by
  intro m
  induction m with
  | zero =>
    intro i fuel hb ha hf
    cases fuel with
    | zero => omega
    | succ fuel =>
      simp only [Nat.add_zero] at ha
      simp [loopRun, ha]
  | succ m ih =>
    intro i fuel hb ha hf
    cases fuel with
    | zero => omega
    | succ fuel =>
      have h0 : cancelled i = false := by
        have := hb 0 (by omega)
        simpa using this
      have hb' : ∀ j, j < m → cancelled (i + 1 + j) = false := by
        intro j hj
        have := hb (j + 1) (by omega)
        rwa [show i + (j + 1) = i + 1 + j by omega] at this
      have ha' : cancelled (i + 1 + m) = true := by
        rwa [show i + (m + 1) = i + 1 + m by omega] at ha
      have hstep : loopRun cancelled i (fuel + 1) =
          Event.runIter :: loopRun cancelled (i + 1) fuel := by
        simp [loopRun, h0]
      rw [hstep, ih (i + 1) fuel hb' ha' (by omega), List.replicate_succ,
        List.cons_append]

end Sqsch.Receive

/-- C1: Splitter greedy-packing invariant — for every total demand `D > 0`
and max chunk size `M > 0`, `Receive.Requests` (and, equivalently,
`Page.Pages`) returns exactly `ceil(D/M)` chunk sizes, each chunk is
positive and at most `M`, every chunk except the last equals `M`, the
last equals `D - M*(n-1)`, and the chunk sizes sum to `D`. -/
theorem C1_splitter_greedy_packing (D M : Int) (hD : 0 < D) (hM : 0 < M) :
    ∃ l : List Int,
      Sqsch.Receive.Requests M D = some l ∧
      Sqsch.Page.Pages M D = some l ∧
      (l.length : Int) = Sqsch.Receive.ceilDiv D M ∧
      l ≠ [] ∧
      (∀ c ∈ l, 0 < c ∧ c ≤ M) ∧
      (∀ c ∈ l.dropLast, c = M) ∧
      l.getLast? = some (D - M * ((l.length : Int) - 1)) ∧
      l.sum = D := by
  obtain ⟨n, hce, h1, h2, hreq⟩ := Sqsch.Receive.Requests_pos_closed M D hM hD
  have hexp : ((n : Int) + 1) * M = (n : Int) * M + M := by ring
  refine ⟨List.replicate n M ++ [D - (n : Int) * M], hreq, ?_, ?_, ?_, ?_, ?_,
    ?_, ?_⟩
  · rw [Sqsch.Page.Pages_eq_Requests]
    exact hreq
  · rw [hce]
    simp
  · simp
  · intro c hc
    rcases List.mem_append.mp hc with hc | hc
    · rw [List.eq_of_mem_replicate hc]
      exact ⟨hM, le_refl M⟩
    · rw [List.mem_singleton.mp hc]
      exact ⟨by linarith, by linarith⟩
  · rw [List.dropLast_concat]
    intro c hc
    exact List.eq_of_mem_replicate hc
  · rw [List.getLast?_concat]
    congr 1
    simp
    ring
  · simp [List.sum_replicate, nsmul_eq_mul]

/-- C1 witness at `D = 25`, `M = 10`, where the chunks are `[10, 10, 5]`. -/
theorem C1_splitter_greedy_packing_witness :
    (0 : Int) < 25 ∧ (0 : Int) < 10 ∧
    ∃ l : List Int,
      Sqsch.Receive.Requests 10 25 = some l ∧
      Sqsch.Page.Pages 10 25 = some l ∧
      (l.length : Int) = Sqsch.Receive.ceilDiv 25 10 ∧
      l ≠ [] ∧
      (∀ c ∈ l, 0 < c ∧ c ≤ 10) ∧
      (∀ c ∈ l.dropLast, c = 10) ∧
      l.getLast? = some (25 - 10 * ((l.length : Int) - 1)) ∧
      l.sum = 25 :=
  ⟨by decide, by decide,
    C1_splitter_greedy_packing 25 10 (by decide) (by decide)⟩

/-- C3: Zero-demand cost control — for every max chunk size `M > 0`,
splitting a total of 0 yields the empty chunk sequence, and one `Run`
iteration whose `CountFunc` returned 0 therefore executes `Do` (the work
function, which issues the remote call) zero times. -/
theorem C3_zero_demand_no_calls (M : Int) (hM : 0 < M) :
    Sqsch.Receive.Requests M 0 = some [] ∧
    ∀ doFunc : Int → List Int × Option String,
      Sqsch.Receive.RunOut doFunc M 0 = some [] := by
  refine ⟨Sqsch.Receive.Requests_zero M, fun doFunc => ?_⟩
  simp [Sqsch.Receive.RunOut, Sqsch.Receive.Requests_zero]

/-- C3 witness at `M = 10`. -/
theorem C3_zero_demand_no_calls_witness :
    (0 : Int) < 10 ∧
    (Sqsch.Receive.Requests 10 0 = some [] ∧
      ∀ doFunc : Int → List Int × Option String,
        Sqsch.Receive.RunOut doFunc 10 0 = some []) :=
  ⟨by decide, C3_zero_demand_no_calls 10 (by decide)⟩

/-- C10 counterexample: at `MaxCount = 10` and `count = -5` the computed
slice length `ceil(-5/10)` is 0, not negative, so `Requests` returns
normally (the empty slice) at a negative count — the panic branch is not
unreachable "exactly" under the precondition `count ≥ 0`. -/
theorem C10_negative_count_counterexample :
    Sqsch.Receive.Requests 10 (-5) = some [] ∧ (-5 : Int) < 0 := by decide

/-- C10 (amended): with `MaxCount ≥ 1`, `Requests` returns normally for
every `count ≥ 0`, and the negative-length allocation panic occurs
precisely for `count ≤ -MaxCount`: the panic branch is unreachable
exactly when `count > -MaxCount`, a strictly weaker condition than
`count ≥ 0` whenever `MaxCount ≥ 2`. -/
theorem C10_totality_amended (M count : Int) (hM : 1 ≤ M) :
    (0 ≤ count → ∃ l, Sqsch.Receive.Requests M count = some l) ∧
    (Sqsch.Receive.Requests M count = none ↔ count ≤ -M) := by
  have hM0 : (0 : Int) < M := by omega
  have hkey : Sqsch.Receive.Requests M count = none ↔
      Sqsch.Receive.ceilDiv count M < 0 := by
    unfold Sqsch.Receive.Requests
    split <;> simp_all
  have hchar : Sqsch.Receive.ceilDiv count M < 0 ↔ count ≤ -M := by
    unfold Sqsch.Receive.ceilDiv
    constructor
    · intro h
      have h2 : 1 ≤ (-count) / M := by linarith
      have h3 := (Int.le_ediv_iff_mul_le hM0).mp h2
      linarith
    · intro h
      have h2 : (1 : Int) * M ≤ -count := by linarith
      have h3 := (Int.le_ediv_iff_mul_le hM0).mpr h2
      linarith
  refine ⟨fun h0 => ?_, hkey.trans hchar⟩
  exact Sqsch.Receive.Requests_nonneg_some M count hM0 h0

/-- C10 amended-claim witness at `M = 10`, `count = -20` (panic) and, via
the first conjunct, `count ≥ 0` well-definedness. -/
theorem C10_totality_amended_witness :
    (1 : Int) ≤ 10 ∧
    (((0 : Int) ≤ -20 → ∃ l, Sqsch.Receive.Requests 10 (-20) = some l) ∧
      (Sqsch.Receive.Requests 10 (-20) = none ↔ (-20 : Int) ≤ -10)) :=
  ⟨by decide, C10_totality_amended 10 (-20) (by decide)⟩

/-- C4: Fan-out per-chunk result/error discipline — for a chunk request
`r`, if the work function returns an error then `Do` emits exactly one
error and no results for that chunk; if it returns items with no error,
`Do` emits exactly those items, in the order returned, and no error. -/
theorem C4_per_chunk_discipline (α ε : Type)
    (doFunc : Int → List α × Option ε) (r : Int) :
    (∀ items e, doFunc r = (items, some e) →
      Sqsch.Receive.Do doFunc r = ([], [e])) ∧
    (∀ items, doFunc r = (items, none) →
      Sqsch.Receive.Do doFunc r = (items, [])) := by
  constructor
  · intro items e h
    simp [Sqsch.Receive.Do, h]
  · intro items h
    simp [Sqsch.Receive.Do, h]

/-- C4 witness: a succeeding chunk emits its two items in order and no
error; a failing chunk emits one error and no items. -/
theorem C4_per_chunk_discipline_witness :
    Sqsch.Receive.Do
      (fun _ => (([3, 4] : List Int), (none : Option String))) 7 =
      ([3, 4], []) ∧
    Sqsch.Receive.Do
      (fun _ => (([] : List Int), some "boom")) 7 = ([], ["boom"]) :=
  ⟨(C4_per_chunk_discipline Int String (fun _ => ([3, 4], none)) 7).2
      [3, 4] rfl,
   (C4_per_chunk_discipline Int String (fun _ => ([], some "boom")) 7).1
      [] "boom" rfl⟩

/-- C5 counterexample: the goroutine clears the `started` flag when it
observes cancellation (receive.go sets `r.started = false` before
sending on `done`), so after the loop has stopped a subsequent `Start`
succeeds and begins a new lifecycle instead of failing. -/
theorem C5_restart_counterexample :
    Sqsch.Receive.Start Sqsch.Receive.initial =
      Except.ok { started := true, doneCount := 0 } ∧
    Sqsch.Receive.observeCancel { started := true, doneCount := 0 } =
      { started := false, doneCount := 1 } ∧
    Sqsch.Receive.Start { started := false, doneCount := 1 } =
      Except.ok { started := true, doneCount := 1 } :=
  ⟨rfl, rfl, rfl⟩

/-- C5 (amended): calling `Start` while the `started` flag is set panics
with "receive already started" — a reported precondition failure, not a
silent no-op; but the loop clears the flag when it observes cancellation,
so once the loop has stopped a subsequent `Start` succeeds and begins a
new lifecycle: the instance is restartable after stopping. -/
theorem C5_single_use_amended (s : Sqsch.Receive.State)
    (h : s.started = true) :
    Sqsch.Receive.Start s = Except.error "receive already started" ∧
    Sqsch.Receive.Start (Sqsch.Receive.observeCancel s) =
      Except.ok { started := true, doneCount := s.doneCount + 1 } := by
  constructor
  · simp [Sqsch.Receive.Start, h]
  · simp [Sqsch.Receive.Start, Sqsch.Receive.observeCancel]

/-- C5 amended-claim witness at the running state. -/
theorem C5_single_use_amended_witness :
    ({ started := true, doneCount := 0 } : Sqsch.Receive.State).started =
      true ∧
    (Sqsch.Receive.Start { started := true, doneCount := 0 } =
      Except.error "receive already started" ∧
    Sqsch.Receive.Start
        (Sqsch.Receive.observeCancel { started := true, doneCount := 0 }) =
      Except.ok { started := true, doneCount := 1 }) :=
  ⟨rfl, C5_single_use_amended { started := true, doneCount := 0 } rfl⟩

/-- C6: Cancellation behavior of the demand loop — if cancellation first
becomes visible at the `m`-th between-iteration check (and the observed
fuel covers it), the loop trace is exactly `m` completed `Run`
iterations followed by the completion signal: no iteration starts after
cancellation is observed, every iteration that started ran to
completion before the next check, and the done notification fires
exactly once — never zero times and never twice. -/
theorem C6_cancellation_trace (cancelled : Nat → Bool) (m fuel : Nat)
    (hbefore : ∀ j, j < m → cancelled j = false)
    (hat : cancelled m = true) (hfuel : m < fuel) :
    Sqsch.Receive.loopRun cancelled 0 fuel =
      List.replicate m Sqsch.Receive.Event.runIter ++
        [Sqsch.Receive.Event.doneSignal] ∧
    (Sqsch.Receive.loopRun cancelled 0 fuel).count
      Sqsch.Receive.Event.doneSignal = 1 ∧
    (Sqsch.Receive.loopRun cancelled 0 fuel).count
      Sqsch.Receive.Event.runIter = m := by
  have h := Sqsch.Receive.loopRun_closed cancelled m 0 fuel
    (by simpa using hbefore) (by simpa using hat) hfuel
  refine ⟨h, ?_, ?_⟩ <;>
    rw [h] <;>
    simp [List.count_append, List.count_replicate]

/-- C6 witness: cancellation arrives before the third check; the trace is
two completed iterations and one done signal. -/
theorem C6_cancellation_trace_witness :
    (∀ j, j < 2 → (fun i => decide (2 ≤ i)) j = false) ∧
    (fun i => decide (2 ≤ i)) 2 = true ∧ 2 < 5 ∧
    (Sqsch.Receive.loopRun (fun i => decide (2 ≤ i)) 0 5 =
      List.replicate 2 Sqsch.Receive.Event.runIter ++
        [Sqsch.Receive.Event.doneSignal] ∧
    (Sqsch.Receive.loopRun (fun i => decide (2 ≤ i)) 0 5).count
      Sqsch.Receive.Event.doneSignal = 1 ∧
    (Sqsch.Receive.loopRun (fun i => decide (2 ≤ i)) 0 5).count
      Sqsch.Receive.Event.runIter = 2) :=
  ⟨by decide, by decide, by decide,
    C6_cancellation_trace (fun i => decide (2 ≤ i)) 2 5 (by decide) (by decide)
      (by decide)⟩

/-- C7: Transport-level acknowledgement failure — when the whole
DeleteMessageBatch call returns an error, the dispatcher emits exactly
that one error for the batch, emits no per-item failure values, and the
loop continues processing the subsequent batches. -/
theorem C7_transport_failure (entries : List Sqsch.DeleteEntry) (e : String)
    (rest : List (List Sqsch.DeleteEntry ×
      Except String (List Sqsch.BatchResultErrorEntry))) :
    Sqsch.deleteBatchStep entries (Except.error e) =
      some [Sqsch.DeleteEmitted.transport e] ∧
    Sqsch.deleteLoop ((entries, Except.error e) :: rest) =
      (Sqsch.deleteLoop rest).map
        (fun outs => Sqsch.DeleteEmitted.transport e :: outs) := by
  refine ⟨rfl, ?_⟩
  cases h : Sqsch.deleteLoop rest <;>
    simp [Sqsch.deleteLoop, Sqsch.deleteBatchStep, h]

/-- C8: Protocol-limit bound on remote calls — for every nonnegative
demand value (as returned by the capacity function), the demand is split
with `MaxCount = MaxBatchSize`, each chunk count is passed through
unchanged as the request's `MaxNumberOfMessages`, and every issued
request asks for at most `MaxBatchSize = 10` messages. -/
theorem C8_protocol_limit (demand : Int) (h : 0 ≤ demand) :
    ∃ chunks : List Int,
      Sqsch.Receive.Requests Sqsch.MaxBatchSize demand = some chunks ∧
      Sqsch.dispatchReceiveCalls demand =
        some (chunks.map Sqsch.receiveMessages) ∧
      ∀ req ∈ chunks.map Sqsch.receiveMessages,
        req.maxNumberOfMessages ≤ Sqsch.MaxBatchSize := by
  obtain ⟨chunks, hchunks⟩ :=
    Sqsch.Receive.Requests_nonneg_some Sqsch.MaxBatchSize demand (by decide) h
  refine ⟨chunks, hchunks, ?_, ?_⟩
  · simp [Sqsch.dispatchReceiveCalls, hchunks]
  · intro req hmem
    obtain ⟨c, hc, rfl⟩ := List.mem_map.mp hmem
    simpa [Sqsch.receiveMessages] using
      Sqsch.Receive.Requests_mem_le Sqsch.MaxBatchSize demand (by decide) h
        chunks hchunks c hc

/-- C8 witness at demand 25: three requests of sizes 10, 10, 5, all
within the protocol limit. -/
theorem C8_protocol_limit_witness :
    (0 : Int) ≤ 25 ∧
    ∃ chunks : List Int,
      Sqsch.Receive.Requests Sqsch.MaxBatchSize 25 = some chunks ∧
      Sqsch.dispatchReceiveCalls 25 =
        some (chunks.map Sqsch.receiveMessages) ∧
      ∀ req ∈ chunks.map Sqsch.receiveMessages,
        req.maxNumberOfMessages ≤ Sqsch.MaxBatchSize :=
  ⟨by decide, C8_protocol_limit 25 (by decide)⟩

/-- C9: Implicit default of the demand ceiling — a zero
`ReceiveBufferSize` is set to 1 before the receive channel is allocated,
so the buffer capacity is exactly 1, the demand signal (capacity minus
length, with length never exceeding capacity) always lies between 0 and
1, and every request issued under the default configuration asks for at
most 1 message. -/
theorem C9_default_buffer_demand (chanLen : Nat) (h : chanLen ≤ 1) :
    Sqsch.defaultedReceiveBufferSize 0 = 1 ∧
    0 ≤ Sqsch.ReceiveCapacity 1 chanLen ∧
    Sqsch.ReceiveCapacity 1 chanLen ≤ 1 ∧
    ∃ reqs,
      Sqsch.dispatchReceiveCalls (Sqsch.ReceiveCapacity 1 chanLen) =
        some reqs ∧
      ∀ req ∈ reqs, req.maxNumberOfMessages ≤ 1 := by
  have hcases : chanLen = 0 ∨ chanLen = 1 := by omega
  rcases hcases with rfl | rfl
  · exact ⟨by decide, by decide, by decide,
      [{ maxNumberOfMessages := 1, waitTimeSeconds := 20 }], by decide,
      by decide⟩
  · exact ⟨by decide, by decide, by decide, [], by decide, by decide⟩

/-- C9 witness at an empty buffer (length 0): capacity is 1 and a single
1-message request is issued. -/
theorem C9_default_buffer_demand_witness :
    0 ≤ 1 ∧
    (Sqsch.defaultedReceiveBufferSize 0 = 1 ∧
    0 ≤ Sqsch.ReceiveCapacity 1 0 ∧
    Sqsch.ReceiveCapacity 1 0 ≤ 1 ∧
    ∃ reqs,
      Sqsch.dispatchReceiveCalls (Sqsch.ReceiveCapacity 1 0) = some reqs ∧
      ∀ req ∈ reqs, req.maxNumberOfMessages ≤ 1) :=
  ⟨by decide, C9_default_buffer_demand 0 (by decide)⟩

/-- C2: evaluation of the per-item acknowledgement failure loop at a
batch of two entries (receipt handles "h0" and "h1", entry Ids "0" and
"1") where only the second entry fails: the service reports one failure
carrying Id "1", but the loop pairs it with `entries[0]` — the failure's
position in the `Failed` list — and emits a `BatchDeleteError` carrying
receipt handle "h0", the handle of the entry that succeeded; the failing
entry's handle "h1" is never reported. -/
theorem C2_wrong_handle_eval :
    Sqsch.mkEntries ["h0", "h1"] =
      [{ id := "0", receiptHandle := "h0" },
       { id := "1", receiptHandle := "h1" }] ∧
    Sqsch.mkFailed (Sqsch.mkEntries ["h0", "h1"]) [1] "c" "m" =
      [{ id := "1", code := "c", message := "m" }] ∧
    Sqsch.deleteFailed (Sqsch.mkEntries ["h0", "h1"])
        (Sqsch.mkFailed (Sqsch.mkEntries ["h0", "h1"]) [1] "c" "m") 0 =
      some [{ code := "c", message := "m", receiptHandle := "h0" }] :=
  ⟨rfl, rfl, rfl⟩
